import Mathlib

/-!
Verification of the edit-session core of the Ultimate Product Photo Editor
(src/App.tsx): the image-selection handler, the submit handler with its
validation, encoding, remote call and error handling, together with the
base64 codec and the remote-response interpretation that the App consumes.

Bytes are modelled as natural numbers below 256, binary blobs as lists of
bytes, and the React component state as an explicit record.  The submit
handler is embedded as a pure function of the component state and of an
environment value describing the outcomes of the two awaited effects (the
file read and the remote call); it additionally returns the list of state
mutations and external calls it performs, in order, so that sequencing
claims can be stated.
-/

/-- SourceImage: a locally selected file, a binary blob together with its
declared media type (`File` in the browser API). -/
structure File where
  bytes : List Nat
  mimeType : String
deriving DecidableEq, Repr

/-- EncodedImage: the record returned by `fileToBase64` in the source,
`\x7b base64, mimeType \x7d`. -/
structure EncodedImage where
  base64 : String
  mimeType : String
deriving DecidableEq, Repr

/-- Modelled from the spec: the radix-64 alphabet of the standard text-safe
encoding used by the missing `utils/fileUtils.fileToBase64`. -/
def base64Alphabet : List Char :=
  "ABCDEFGHIJKLMNOPQRSTUVWXYZabcdefghijklmnopqrstuvwxyz0123456789+/".toList

/-- Character of a six-bit value in the radix-64 alphabet. -/
def sextetChar (n : Nat) : Char :=
  base64Alphabet.getD n 'A'

/-- Six-bit value of a radix-64 character (inverse lookup). -/
def sextetVal (c : Char) : Nat :=
  base64Alphabet.indexOf c

/-- Modelled from the spec: base64 encoding of a byte list, three bytes to
four characters, with `=` padding for a trailing group of one or two bytes. -/
def b64EncodeChars : List Nat → List Char
  | [] => []
  | [a] =>
      [sextetChar (a / 4), sextetChar (a % 4 * 16), '=', '=']
  | [a, b] =>
      [sextetChar (a / 4), sextetChar (a % 4 * 16 + b / 16),
       sextetChar (b % 16 * 4), '=']
  | a :: b :: c :: rest =>
      sextetChar (a / 4) :: sextetChar (a % 4 * 16 + b / 16) ::
      sextetChar (b % 16 * 4 + c / 64) :: sextetChar (c % 64) ::
      b64EncodeChars rest

/-- Base64 encoding of a byte list as a string. -/
def b64Encode (bytes : List Nat) : String :=
  String.mk (b64EncodeChars bytes)

/-- Base64 decoding of a character list back to bytes, honouring `=`
padding. -/
def b64DecodeChars : List Char → List Nat
  | c0 :: c1 :: c2 :: c3 :: rest =>
      if c2 = '=' then
        [sextetVal c0 * 4 + sextetVal c1 / 16]
      else if c3 = '=' then
        [sextetVal c0 * 4 + sextetVal c1 / 16,
         sextetVal c1 % 16 * 16 + sextetVal c2 / 4]
      else
        (sextetVal c0 * 4 + sextetVal c1 / 16) ::
        (sextetVal c1 % 16 * 16 + sextetVal c2 / 4) ::
        (sextetVal c2 % 4 * 64 + sextetVal c3) ::
        b64DecodeChars rest
  | _ => []

/-- Base64 decoding of a string. -/
def b64Decode (s : String) : List Nat :=
  b64DecodeChars s.toList

/-- Modelled from the spec: the missing `utils/fileUtils.fileToBase64` reads
the blob, base64-encodes its bytes and records the declared media type
separately. -/
def fileToBase64 (f : File) : EncodedImage :=
  { base64 := b64Encode f.bytes, mimeType := f.mimeType }

/-- Inverse lookup recovers every six-bit value. -/
lemma sextetVal_sextetChar : ∀ n < 64, sextetVal (sextetChar n) = n := by
  decide

/-- No six-bit value is encoded as the padding character. -/
lemma sextetChar_ne_pad : ∀ n < 64, sextetChar n ≠ '=' := by
  decide

/-- Decoding inverts encoding chunk by chunk. -/
lemma b64DecodeChars_b64EncodeChars (B : List Nat) (h : ∀ x ∈ B, x < 256) :
    b64DecodeChars (b64EncodeChars B) = B := by
  induction B using b64EncodeChars.induct with
  | case1 =>
      simp [b64EncodeChars, b64DecodeChars]
  | case2 a =>
      have ha : a < 256 := h a (by simp)
      rw [b64EncodeChars, b64DecodeChars]
      rw [if_pos rfl]
      rw [sextetVal_sextetChar (a / 4) (by omega),
          sextetVal_sextetChar (a % 4 * 16) (by omega)]
      simp only [List.cons.injEq, and_true]
      omega
  | case3 a b =>
      have ha : a < 256 := h a (by simp)
      have hb : b < 256 := h b (by simp)
      rw [b64EncodeChars, b64DecodeChars]
      rw [if_neg (sextetChar_ne_pad (b % 16 * 4) (by omega))]
      rw [if_pos rfl]
      rw [sextetVal_sextetChar (a / 4) (by omega),
          sextetVal_sextetChar (a % 4 * 16 + b / 16) (by omega),
          sextetVal_sextetChar (b % 16 * 4) (by omega)]
      simp only [List.cons.injEq, and_true]
      constructor
      · omega
      · omega
  | case4 a b c rest ih =>
      have ha : a < 256 := h a (by simp)
      have hb : b < 256 := h b (by simp)
      have hc : c < 256 := h c (by simp)
      have hrest : ∀ x ∈ rest, x < 256 := by
        intro x hx
        exact h x (by simp [hx])
      rw [b64EncodeChars, b64DecodeChars]
      rw [if_neg (sextetChar_ne_pad (b % 16 * 4 + c / 64) (by omega))]
      rw [if_neg (sextetChar_ne_pad (c % 64) (by omega))]
      rw [sextetVal_sextetChar (a / 4) (by omega),
          sextetVal_sextetChar (a % 4 * 16 + b / 16) (by omega),
          sextetVal_sextetChar (b % 16 * 4 + c / 64) (by omega),
          sextetVal_sextetChar (c % 64) (by omega)]
      rw [ih hrest]
      simp only [List.cons.injEq, and_true]
      refine ⟨by omega, by omega, by omega⟩

/-- Decoding a string made of encoded characters recovers the bytes. -/
lemma b64Decode_b64Encode (B : List Nat) (h : ∀ x ∈ B, x < 256) :
    b64Decode (b64Encode B) = B := by
  unfold b64Decode b64Encode
  exact b64DecodeChars_b64EncodeChars B h

/-- Response part: one unit of the multi-part remote response, either text
commentary or a generated image carrying a media type and base64 data. -/
inductive ResponsePart where
  | text (content : String)
  | image (mediaType : String) (data : String)
deriving DecidableEq, Repr

/-- Whether a response part is image-typed. -/
def isImagePart : ResponsePart → Bool
  | ResponsePart.text _ => false
  | ResponsePart.image _ _ => true

/-- First image-typed part of a response, as (mediaType, data), scanning in
response order. -/
def firstImagePart (parts : List ResponsePart) : Option (String × String) :=
  parts.findSome? fun p =>
    match p with
    | ResponsePart.image mt d => some (mt, d)
    | ResponsePart.text _ => none

/-- Message used when the response carries no image-typed part. -/
def noImageInResponseMsg : String :=
  "No image was returned in the response."

/-- Modelled from the spec: the missing
`services/geminiService.editImageWithPrompt` response interpretation.  The
client scans the response parts in order and returns the encoded content of
the first image-typed part; if no part is image-typed it fails with the
NoImageInResponse error.  Consistent with src/App.tsx line 68, the caller
receives only the encoded payload string, not the media type of the matched
part. -/
def editImageWithPrompt (parts : List ResponsePart) : Except String String :=
  match firstImagePart parts with
  | some md => Except.ok md.2
  | none => Except.error noImageInResponseMsg

/-- Environment of one submit: outcomes of the two awaited effects, the
binary read inside `fileToBase64` (ReadError message, or success) and the
remote call (TransportError message, or the response parts). -/
structure RemoteWorld where
  readResult : Except String Unit
  remote : Except String (List ResponsePart)

/-- Component state of the App (src/App.tsx lines 30-34). -/
structure AppState where
  originalImageFile : Option File
  editedImage : Option String
  prompt : String
  isLoading : Bool
  error : Option String
deriving DecidableEq, Repr

/-- One state mutation or external call performed by a handler, in program
order. -/
inductive Event where
  | setLoading (b : Bool)
  | setError (m : Option String)
  | setEdited (v : Option String)
  | encodeCall (f : File)
  | requestEditCall (base64 : String) (mimeType : String) (prompt : String)
deriving DecidableEq, Repr

/-- Message shown for a caught failure: the failure message when non-empty
(JavaScript truthiness of `err.message`), otherwise the generic fallback
(src/App.tsx line 72). -/
def errorMessage (m : String) : String :=
  if m = "" then "An unknown error occurred." else m

/-- Data URL built for the edited image (src/App.tsx line 69); its media
type is the `mimeType` destructured from `fileToBase64`. -/
def dataUrl (mimeType : String) (b64 : String) : String :=
  "data:" ++ mimeType ++ ";base64," ++ b64

/-- Trim of the JavaScript string method used in `prompt.trim()`:
whitespace is removed from both ends.  Defined directly on the character
list so that it evaluates by reduction. -/
def jsTrim (s : String) : String :=
  String.mk
    (((s.toList.dropWhile Char.isWhitespace).reverse.dropWhile
        Char.isWhitespace).reverse)

/-- Precondition message when no image is selected (src/App.tsx line 54). -/
def noImageMsg : String := "Please upload an image first."

/-- Precondition message when the instruction is blank (src/App.tsx line
58). -/
def emptyPromptMsg : String := "Please enter an editing instruction."

/-- handleImageChange (src/App.tsx lines 43-50): when the change event
carries a file, store it and clear the edited image and the error; when it
carries none, do nothing. -/
def handleImageChange (file? : Option File) (s : AppState) : AppState :=
  match file? with
  | some file =>
      { s with originalImageFile := some file, editedImage := none,
               error := none }
  | none => s

/-- Prompt update via the textarea or an example-prompt button
(src/App.tsx lines 142 and 162). -/
def setPromptOp (p : String) (s : AppState) : AppState :=
  { s with prompt := p }

/-- handleSubmit (src/App.tsx lines 52-76), as a pure function of the state
and the effect environment.  Returns the final state together with the list
of mutations and external calls in program order: validation, then
`setIsLoading(true); setError(null); setEditedImage(null)`, then the
`fileToBase64` call, then the `editImageWithPrompt` call, then the success
or catch branch, then the `finally` reset of the loading flag. -/
def handleSubmit (w : RemoteWorld) (s : AppState) : AppState × List Event :=
  match s.originalImageFile with
  | none =>
      ({ s with error := some noImageMsg },
       [Event.setError (some noImageMsg)])
  | some file =>
      if jsTrim s.prompt = "" then
        ({ s with error := some emptyPromptMsg },
         [Event.setError (some emptyPromptMsg)])
      else
        let s1 : AppState :=
          { s with isLoading := true, error := none, editedImage := none }
        let pre : List Event :=
          [Event.setLoading true, Event.setError none, Event.setEdited none]
        match w.readResult with
        | Except.error m =>
            ({ s1 with error := some (errorMessage m), isLoading := false },
             pre ++ [Event.encodeCall file,
                     Event.setError (some (errorMessage m)),
                     Event.setLoading false])
        | Except.ok _ =>
            let enc := fileToBase64 file
            match w.remote with
            | Except.error m =>
                ({ s1 with error := some (errorMessage m),
                           isLoading := false },
                 pre ++ [Event.encodeCall file,
                         Event.requestEditCall enc.base64 enc.mimeType
                           s.prompt,
                         Event.setError (some (errorMessage m)),
                         Event.setLoading false])
            | Except.ok parts =>
                match editImageWithPrompt parts with
                | Except.error m =>
                    ({ s1 with error := some (errorMessage m),
                               isLoading := false },
                     pre ++ [Event.encodeCall file,
                             Event.requestEditCall enc.base64 enc.mimeType
                               s.prompt,
                             Event.setError (some (errorMessage m)),
                             Event.setLoading false])
                | Except.ok b64 =>
                    ({ s1 with
                        editedImage := some (dataUrl enc.mimeType b64),
                        isLoading := false },
                     pre ++ [Event.encodeCall file,
                             Event.requestEditCall enc.base64 enc.mimeType
                               s.prompt,
                             Event.setEdited
                               (some (dataUrl enc.mimeType b64)),
                             Event.setLoading false])

/-- SessionPhase of the spec data model. -/
inductive SessionPhase where
  | Idle
  | Validating
  | Loading
  | Success (result : String)
  | Failure (message : String)
deriving DecidableEq, Repr

/-- Phase read off the component state, following the spec mapping of the
local UI fields to the SessionPhase tagged variant. -/
def phase (s : AppState) : SessionPhase :=
  if s.isLoading then SessionPhase.Loading
  else
    match s.error with
    | some m => SessionPhase.Failure m
    | none =>
        match s.editedImage with
        | some r => SessionPhase.Success r
        | none => SessionPhase.Idle

/-- Loading-phase hygiene invariant: while the loading flag is set, no
error and no edited result is present. -/
def loadingInv (s : AppState) : Prop :=
  s.isLoading = true → s.error = none ∧ s.editedImage = none

/-- Whether the effects of a submit environment fail, and with which
message: the read outcome, then the remote outcome, then the response
interpretation, in the order the handler encounters them. -/
def submitFailureMsg (w : RemoteWorld) : Option String :=
  match w.readResult with
  | Except.error m => some m
  | Except.ok _ =>
      match w.remote with
      | Except.error m => some m
      | Except.ok parts =>
          match editImageWithPrompt parts with
          | Except.error m => some m
          | Except.ok _ => none

/-- Scanning a response whose prefix has no image part finds the first
image part after it. -/
lemma firstImagePart_append_image (pre post : List ResponsePart) (mt d : String)
    (hpre : ∀ p ∈ pre, isImagePart p = false) :
    firstImagePart (pre ++ ResponsePart.image mt d :: post) = some (mt, d) := by
  induction pre with
  | nil => simp [firstImagePart]
  | cons q qs ih =>
      have hq : isImagePart q = false := hpre q (by simp)
      have hqs : ∀ p ∈ qs, isImagePart p = false := by
        intro p hp
        exact hpre p (by simp [hp])
      cases q with
      | text c =>
          simpa [firstImagePart, List.findSome?] using ih hqs
      | image mt0 d0 =>
          simp [isImagePart] at hq

/-- Scanning a response with no image part finds nothing. -/
lemma firstImagePart_eq_none (parts : List ResponsePart)
    (hno : ∀ p ∈ parts, isImagePart p = false) :
    firstImagePart parts = none := by
  induction parts with
  | nil => simp [firstImagePart]
  | cons q qs ih =>
      have hq : isImagePart q = false := hno q (by simp)
      have hqs : ∀ p ∈ qs, isImagePart p = false := by
        intro p hp
        exact hno p (by simp [hp])
      cases q with
      | text c =>
          simpa [firstImagePart, List.findSome?] using ih hqs
      | image mt0 d0 =>
          simp [isImagePart] at hq

/-- Claim C10: when the change event carries no file (file picker
cancelled), the selection handler leaves the entire session state unchanged:
the selected image, the edited result and the error message are all
preserved. -/
theorem cancelled_file_selection_noop (s : AppState) :
    handleImageChange none s = s :=
  rfl

/-- Claim C5, counterexample: the claim quantifies over every prior phase,
but selecting a new image during the Loading phase leaves the loading flag
set (src/App.tsx lines 43-50 never touch it, and the file input is not
disabled while loading), so the phase stays Loading rather than returning
to Idle. -/
theorem select_image_during_loading_counterexample :
    phase (handleImageChange (some ⟨[0], "image/png"⟩)
        ⟨some ⟨[1], "image/png"⟩, none, "x", true, none⟩) ≠
      SessionPhase.Idle := by
  decide

/-- Claim C5, amended: selecting a new image clears any prior EditResult
and any prior error message and leaves the loading flag unchanged; whenever
the session is not Loading (prior phase Idle, Success or Failure), the
phase returns to Idle. -/
theorem select_image_clears_result_and_error (f : File) (s : AppState) :
    (handleImageChange (some f) s).editedImage = none ∧
    (handleImageChange (some f) s).error = none ∧
    (handleImageChange (some f) s).isLoading = s.isLoading ∧
    (s.isLoading = false →
      phase (handleImageChange (some f) s) = SessionPhase.Idle) := by
  refine ⟨rfl, rfl, rfl, fun h => ?_⟩
  simp [handleImageChange, phase, h]

/-- Witness for the amended C5 at a concrete Success-phase state. -/
theorem select_image_clears_result_and_error_witness :
    phase (handleImageChange (some ⟨[0], "image/png"⟩)
        ⟨some ⟨[1], "image/png"⟩, some "data:image/png;base64,AAAA", "x",
         false, none⟩) = SessionPhase.Idle :=
  (select_image_clears_result_and_error ⟨[0], "image/png"⟩
      ⟨some ⟨[1], "image/png"⟩, some "data:image/png;base64,AAAA", "x",
       false, none⟩).2.2.2 rfl

/-- Claim C2: when a submit precondition fails (no image selected, or blank
instruction, checked in that order) the handler returns before any call:
the result state differs from the input state only in the error message,
which is that of the first failing precondition, and the event trace is a
single error-message assignment, so no encode call and no remote call
occurs and the loading flag is never set. -/
theorem submit_precondition_failure (w : RemoteWorld) (s : AppState) :
    (s.originalImageFile = none →
      (handleSubmit w s).1 = { s with error := some noImageMsg } ∧
      (handleSubmit w s).2 = [Event.setError (some noImageMsg)]) ∧
    (s.originalImageFile ≠ none → jsTrim s.prompt = "" →
      (handleSubmit w s).1 = { s with error := some emptyPromptMsg } ∧
      (handleSubmit w s).2 = [Event.setError (some emptyPromptMsg)]) := by
  obtain ⟨o, e, p, l, err⟩ := s
  cases o with
  | none =>
      exact ⟨fun _ => ⟨rfl, rfl⟩, fun hne _ => absurd rfl hne⟩
  | some file =>
      refine ⟨fun h => by simp at h, fun _ hp => ?_⟩
      simp [handleSubmit, hp]

/-- Witness for C2 at concrete inputs: a submit with no image selected, and
a submit with a whitespace-only instruction. -/
theorem submit_precondition_failure_witness :
    ((handleSubmit ⟨Except.ok (), Except.ok []⟩
        ⟨none, none, "", false, none⟩).2 =
      [Event.setError (some noImageMsg)]) ∧
    ((handleSubmit ⟨Except.ok (), Except.ok []⟩
        ⟨some ⟨[65], "image/png"⟩, none, "   ", false, none⟩).2 =
      [Event.setError (some emptyPromptMsg)]) :=
  ⟨((submit_precondition_failure ⟨Except.ok (), Except.ok []⟩
        ⟨none, none, "", false, none⟩).1 rfl).2,
   ((submit_precondition_failure ⟨Except.ok (), Except.ok []⟩
        ⟨some ⟨[65], "image/png"⟩, none, "   ", false, none⟩).2
      (by decide) (by decide)).2⟩

/-- Claim C3: when the preconditions pass, the submit handler first clears
the previous error and previous result while entering Loading
(`setLoading true`, `setError none`, `setEdited none`, in program order),
then calls the codec on the current source image, and, when the read
succeeds, then calls the client on the encoding and the current
instruction, in that order. -/
theorem submit_clears_then_encodes_then_requests (w : RemoteWorld)
    (s : AppState) (file : File) (hf : s.originalImageFile = some file)
    (hp : jsTrim s.prompt ≠ "") :
    (∃ tail, (handleSubmit w s).2 =
        Event.setLoading true :: Event.setError none ::
        Event.setEdited none :: Event.encodeCall file :: tail) ∧
    (w.readResult = Except.ok () →
      ∃ tail, (handleSubmit w s).2 =
        Event.setLoading true :: Event.setError none ::
        Event.setEdited none :: Event.encodeCall file ::
        Event.requestEditCall (fileToBase64 file).base64
          (fileToBase64 file).mimeType s.prompt :: tail) := by
  obtain ⟨o, e, p, l, err⟩ := s
  obtain ⟨rr, rm⟩ := w
  cases hf
  cases rr with
  | error m =>
      refine ⟨⟨_, by simp [handleSubmit, hp]; try rfl⟩,
             fun hr => by simp at hr⟩
  | ok u =>
      cases rm with
      | error m =>
          exact ⟨⟨_, by simp [handleSubmit, hp]; try rfl⟩,
                 fun _ => ⟨_, by simp [handleSubmit, hp]; try rfl⟩⟩
      | ok parts =>
          cases hi : editImageWithPrompt parts with
          | error m =>
              exact ⟨⟨_, by simp [handleSubmit, hp, hi]; try rfl⟩,
                     fun _ => ⟨_, by simp [handleSubmit, hp, hi]; try rfl⟩⟩
          | ok b64 =>
              exact ⟨⟨_, by simp [handleSubmit, hp, hi]; try rfl⟩,
                     fun _ => ⟨_, by simp [handleSubmit, hp, hi]; try rfl⟩⟩

/-- Witness for C3 at a concrete passing submit: the trace begins with the
two clears and the loading flag, then the encode call, then the request
call on the encoding and the instruction. -/
theorem submit_clears_then_encodes_then_requests_witness :
    ∃ tail, (handleSubmit ⟨Except.ok (), Except.ok []⟩
        ⟨some ⟨[65, 66], "image/png"⟩, none, "add a retro filter", false,
         none⟩).2 =
      Event.setLoading true :: Event.setError none ::
      Event.setEdited none :: Event.encodeCall ⟨[65, 66], "image/png"⟩ ::
      Event.requestEditCall
        (fileToBase64 ⟨[65, 66], "image/png"⟩).base64
        (fileToBase64 ⟨[65, 66], "image/png"⟩).mimeType
        "add a retro filter" :: tail :=
  (submit_clears_then_encodes_then_requests ⟨Except.ok (), Except.ok []⟩
      ⟨some ⟨[65, 66], "image/png"⟩, none, "add a retro filter", false,
       none⟩ ⟨[65, 66], "image/png"⟩ rfl (by decide)).2 rfl

/-- Claim C4: every failure of the read, the transport or the response
interpretation during a precondition-passing submit is caught at the
session boundary: the submit always ends with the loading flag cleared
(interactive state), and whichever effect fails first yields a single
user-visible message, the failure message itself when non-empty and the
generic fallback otherwise, with no edited result stored. -/
theorem submit_failures_caught_at_boundary (w : RemoteWorld) (s : AppState)
    (file : File) (hf : s.originalImageFile = some file)
    (hp : jsTrim s.prompt ≠ "") :
    (handleSubmit w s).1.isLoading = false ∧
    (∀ m, submitFailureMsg w = some m →
      (handleSubmit w s).1.error = some (errorMessage m) ∧
      (handleSubmit w s).1.editedImage = none) := by
  obtain ⟨o, e, p, l, err⟩ := s
  obtain ⟨rr, rm⟩ := w
  cases hf
  cases rr with
  | error m0 =>
      refine ⟨by simp [handleSubmit, hp], fun m hm => ?_⟩
      simp [submitFailureMsg] at hm
      cases hm
      exact ⟨by simp [handleSubmit, hp], by simp [handleSubmit, hp]⟩
  | ok u =>
      cases rm with
      | error m0 =>
          refine ⟨by simp [handleSubmit, hp], fun m hm => ?_⟩
          simp [submitFailureMsg] at hm
          cases hm
          exact ⟨by simp [handleSubmit, hp], by simp [handleSubmit, hp]⟩
      | ok parts =>
          cases hi : editImageWithPrompt parts with
          | error m0 =>
              refine ⟨by simp [handleSubmit, hp, hi], fun m hm => ?_⟩
              simp [submitFailureMsg, hi] at hm
              cases hm
              exact ⟨by simp [handleSubmit, hp, hi],
                     by simp [handleSubmit, hp, hi]⟩
          | ok b64 =>
              refine ⟨by simp [handleSubmit, hp, hi], fun m hm => ?_⟩
              simp [submitFailureMsg, hi] at hm

/-- Witness for C4 at a concrete failing submit: the read fails with an
empty message, the submit ends non-loading and shows the generic
fallback. -/
theorem submit_failures_caught_at_boundary_witness :
    ((handleSubmit ⟨Except.error "", Except.ok []⟩
        ⟨some ⟨[65], "image/png"⟩, none, "clean it up", false,
         some "old"⟩).1.isLoading = false) ∧
    ((handleSubmit ⟨Except.error "", Except.ok []⟩
        ⟨some ⟨[65], "image/png"⟩, none, "clean it up", false,
         some "old"⟩).1.error = some (errorMessage "")) :=
  ⟨(submit_failures_caught_at_boundary ⟨Except.error "", Except.ok []⟩
      ⟨some ⟨[65], "image/png"⟩, none, "clean it up", false, some "old"⟩
      ⟨[65], "image/png"⟩ rfl (by decide)).1,
   ((submit_failures_caught_at_boundary ⟨Except.error "", Except.ok []⟩
      ⟨some ⟨[65], "image/png"⟩, none, "clean it up", false, some "old"⟩
      ⟨[65], "image/png"⟩ rfl (by decide)).2 "" rfl).1⟩

/-- Claim C6: for every binary input whose elements are bytes, decoding the
payload of the encoding yields the original bytes (lossless round trip);
encoding is a total function of the input, hence deterministic. -/
theorem fileToBase64_roundtrip (f : File) (h : ∀ x ∈ f.bytes, x < 256) :
    b64Decode (fileToBase64 f).base64 = f.bytes :=
  b64Decode_b64Encode f.bytes h

/-- Witness for C6 on a concrete four-byte blob. -/
theorem fileToBase64_roundtrip_witness :
    b64Decode (fileToBase64 ⟨[77, 97, 110, 255], "image/png"⟩).base64 =
      [77, 97, 110, 255] :=
  fileToBase64_roundtrip ⟨[77, 97, 110, 255], "image/png"⟩ (by decide)

/-- Claim C7: when the remote response contains at least one image-typed
part, a precondition-passing submit whose effects complete ends in the
Success phase, and the stored result is built from the first image-typed
part in response order, regardless of the parts (such as text commentary)
preceding it. -/
theorem first_image_part_wins (w : RemoteWorld) (s : AppState) (file : File)
    (pre post : List ResponsePart) (mt d : String)
    (hf : s.originalImageFile = some file) (hp : jsTrim s.prompt ≠ "")
    (hr : w.readResult = Except.ok ())
    (hw : w.remote = Except.ok (pre ++ ResponsePart.image mt d :: post))
    (hpre : ∀ q ∈ pre, isImagePart q = false) :
    phase (handleSubmit w s).1 =
      SessionPhase.Success (dataUrl (fileToBase64 file).mimeType d) := by
  obtain ⟨o, e, p, l, err⟩ := s
  obtain ⟨rr, rm⟩ := w
  cases hf
  simp only at hr hw
  cases hr
  cases hw
  have hi : editImageWithPrompt (pre ++ ResponsePart.image mt d :: post) =
      Except.ok d := by
    simp [editImageWithPrompt, firstImagePart_append_image pre post mt d hpre]
  simp [handleSubmit, hp, hi, phase]

/-- Witness for C7: a response with a leading text part and two image
parts; the stored result uses the first image part. -/
theorem first_image_part_wins_witness :
    phase (handleSubmit
        ⟨Except.ok (),
         Except.ok [ResponsePart.text "here you go",
                    ResponsePart.image "image/png" "QUJD",
                    ResponsePart.image "image/png" "RUZH"]⟩
        ⟨some ⟨[65], "image/png"⟩, none, "make it vibrant", false,
         none⟩).1 =
      SessionPhase.Success
        (dataUrl (fileToBase64 ⟨[65], "image/png"⟩).mimeType "QUJD") :=
  first_image_part_wins
    ⟨Except.ok (),
     Except.ok [ResponsePart.text "here you go",
                ResponsePart.image "image/png" "QUJD",
                ResponsePart.image "image/png" "RUZH"]⟩
    ⟨some ⟨[65], "image/png"⟩, none, "make it vibrant", false, none⟩
    ⟨[65], "image/png"⟩ [ResponsePart.text "here you go"]
    [ResponsePart.image "image/png" "RUZH"] "image/png" "QUJD"
    rfl (by decide) rfl rfl (by decide)

/-- Claim C8: when the remote response contains no image-typed part, a
precondition-passing submit ends in the Failure phase carrying the
NoImageInResponse message, and in particular never in the Success phase. -/
theorem no_image_parts_failure (w : RemoteWorld) (s : AppState)
    (file : File) (parts : List ResponsePart)
    (hf : s.originalImageFile = some file) (hp : jsTrim s.prompt ≠ "")
    (hr : w.readResult = Except.ok ()) (hw : w.remote = Except.ok parts)
    (hno : ∀ q ∈ parts, isImagePart q = false) :
    phase (handleSubmit w s).1 =
      SessionPhase.Failure noImageInResponseMsg ∧
    ∀ r, phase (handleSubmit w s).1 ≠ SessionPhase.Success r := by
  obtain ⟨o, e, p, l, err⟩ := s
  obtain ⟨rr, rm⟩ := w
  cases hf
  simp only at hr hw
  cases hr
  cases hw
  have hi : editImageWithPrompt parts =
      Except.error noImageInResponseMsg := by
    simp [editImageWithPrompt, firstImagePart_eq_none parts hno]
  have hmsg : errorMessage noImageInResponseMsg = noImageInResponseMsg := by
    decide
  constructor
  · simp [handleSubmit, hp, hi, phase, hmsg]
  · intro r
    simp [handleSubmit, hp, hi, phase, hmsg]

/-- Witness for C8: a response consisting of a single text part ends the
submit in Failure with the NoImageInResponse message. -/
theorem no_image_parts_failure_witness :
    phase (handleSubmit
        ⟨Except.ok (), Except.ok [ResponsePart.text "I cannot edit this"]⟩
        ⟨some ⟨[66], "image/png"⟩, none, "remove the background", false,
         none⟩).1 =
      SessionPhase.Failure noImageInResponseMsg :=
  (no_image_parts_failure
    ⟨Except.ok (), Except.ok [ResponsePart.text "I cannot edit this"]⟩
    ⟨some ⟨[66], "image/png"⟩, none, "remove the background", false, none⟩
    ⟨[66], "image/png"⟩ [ResponsePart.text "I cannot edit this"]
    rfl (by decide) rfl rfl (by decide)).1

/-- Claim C9: the Loading-phase hygiene invariant (loading implies no error
and no edited result) is preserved by every operation: image selection and
prompt edits keep it from any state satisfying it, the Loading state a
passing submit enters has both fields cleared by construction, and a submit
started from a non-loading state (the generate button is disabled while
loading, src/App.tsx line 151) ends in a state satisfying it. -/
theorem loading_invariant_preserved (w : RemoteWorld) (s : AppState)
    (file? : Option File) (p : String) (hinv : loadingInv s) :
    loadingInv (handleImageChange file? s) ∧
    loadingInv (setPromptOp p s) ∧
    loadingInv
      { s with isLoading := true, error := none, editedImage := none } ∧
    (s.isLoading = false → loadingInv (handleSubmit w s).1) := by
  refine ⟨?_, ?_, ?_, ?_⟩
  · cases file? with
    | none => exact hinv
    | some f => exact fun _ => ⟨rfl, rfl⟩
  · exact fun h => hinv h
  · exact fun _ => ⟨rfl, rfl⟩
  · intro hnl
    obtain ⟨o, e, pr, l, err⟩ := s
    simp only at hnl
    cases hnl
    obtain ⟨rr, rm⟩ := w
    cases o with
    | none =>
        intro h
        simp [handleSubmit] at h
    | some file =>
        by_cases hp : jsTrim pr = ""
        · intro h
          simp [handleSubmit, hp] at h
        · cases rr with
          | error m => intro h; simp [handleSubmit, hp] at h
          | ok u =>
              cases rm with
              | error m => intro h; simp [handleSubmit, hp] at h
              | ok parts =>
                  cases hi : editImageWithPrompt parts with
                  | error m => intro h; simp [handleSubmit, hp, hi] at h
                  | ok b64 => intro h; simp [handleSubmit, hp, hi] at h

/-- Witness for C9 at a concrete Failure-phase state: selection, prompt
edit, the entered Loading state and a completed submit all satisfy the
invariant. -/
theorem loading_invariant_preserved_witness :
    loadingInv (handleImageChange (some ⟨[65], "image/png"⟩)
      ⟨some ⟨[66], "image/png"⟩, none, "x", false, some "old"⟩) ∧
    loadingInv (handleSubmit ⟨Except.ok (), Except.ok []⟩
      ⟨some ⟨[66], "image/png"⟩, none, "x", false, some "old"⟩).1 :=
  ⟨(loading_invariant_preserved ⟨Except.ok (), Except.ok []⟩
      ⟨some ⟨[66], "image/png"⟩, none, "x", false, some "old"⟩
      (some ⟨[65], "image/png"⟩) "y" (fun h => nomatch h)).1,
   (loading_invariant_preserved ⟨Except.ok (), Except.ok []⟩
      ⟨some ⟨[66], "image/png"⟩, none, "x", false, some "old"⟩
      (some ⟨[65], "image/png"⟩) "y" (fun h => nomatch h)).2.2.2 rfl⟩

/-- Claim C1, counterexample: the stored edit result does not take its
media type from the matched image part.  With a source image of media type
image/png and a remote response whose only image part has media type
image/jpeg and payload QUJD, the stored data URL uses image/png, the
media type of the SOURCE image, not image/jpeg (src/App.tsx line 69
interpolates the mimeType destructured from fileToBase64). -/
theorem editedImage_mediaType_from_source_counterexample :
    ((handleSubmit
        ⟨Except.ok (), Except.ok [ResponsePart.image "image/jpeg" "QUJD"]⟩
        ⟨some ⟨[65, 66], "image/png"⟩, none, "remove the background", false,
         none⟩).1.editedImage = some (dataUrl "image/png" "QUJD")) ∧
    ((handleSubmit
        ⟨Except.ok (), Except.ok [ResponsePart.image "image/jpeg" "QUJD"]⟩
        ⟨some ⟨[65, 66], "image/png"⟩, none, "remove the background", false,
         none⟩).1.editedImage ≠ some (dataUrl "image/jpeg" "QUJD")) := by
  constructor
  · decide
  · decide

/-- Claim C1, amended: on every successful edit request the stored result
has payload equal to the first matched image part's encoded content
verbatim (no re-encoding), while its media type is that of the SOURCE
image, the mimeType returned by fileToBase64, not the media type of the
matched part. -/
theorem editedImage_payload_verbatim_mediaType_from_source
    (w : RemoteWorld) (s : AppState) (file : File)
    (pre post : List ResponsePart) (mt d : String)
    (hf : s.originalImageFile = some file) (hp : jsTrim s.prompt ≠ "")
    (hr : w.readResult = Except.ok ())
    (hw : w.remote = Except.ok (pre ++ ResponsePart.image mt d :: post))
    (hpre : ∀ q ∈ pre, isImagePart q = false) :
    (handleSubmit w s).1.editedImage =
      some (dataUrl (fileToBase64 file).mimeType d) := by
  obtain ⟨o, e, p, l, err⟩ := s
  obtain ⟨rr, rm⟩ := w
  cases hf
  simp only at hr hw
  cases hr
  cases hw
  have hi : editImageWithPrompt (pre ++ ResponsePart.image mt d :: post) =
      Except.ok d := by
    simp [editImageWithPrompt, firstImagePart_append_image pre post mt d hpre]
  simp [handleSubmit, hp, hi]

/-- Witness for the amended C1: the payload QUJD of the matched part is
stored verbatim behind the source media type. -/
theorem editedImage_payload_verbatim_mediaType_from_source_witness :
    (handleSubmit
        ⟨Except.ok (), Except.ok [ResponsePart.image "image/jpeg" "QUJD"]⟩
        ⟨some ⟨[67], "image/png"⟩, none, "convert to black and white",
         false, none⟩).1.editedImage =
      some (dataUrl (fileToBase64 ⟨[67], "image/png"⟩).mimeType "QUJD") :=
  editedImage_payload_verbatim_mediaType_from_source
    ⟨Except.ok (), Except.ok [ResponsePart.image "image/jpeg" "QUJD"]⟩
    ⟨some ⟨[67], "image/png"⟩, none, "convert to black and white", false,
     none⟩
    ⟨[67], "image/png"⟩ [] [] "image/jpeg" "QUJD"
    rfl (by decide) rfl rfl (by decide)
